import Mathlib

/-!
Shallow embedding of the conversational-memory / hybrid-retrieval layer of
`src/02_completed/python/src/app/services/azure_cosmos_db.py`.

Cosmos DB documents are Python dicts serialized to JSON; we model them as
association lists of string keys and JSON-like values, which keeps the
distinction the code relies on between a field that is absent
(`NOT IS_DEFINED(c.f)`) and a field that is present with value `null`
(Python `None`).  A container is the list of its documents, in insertion
order; `upsert_item` replaces the document with the same `id` or appends.
Module-level container globals that may be `None` become `Option` container
states; each SQL query issued by the code is modelled directly as the
filter / sort / truncate it denotes, with Cosmos's documented rule that an
`ORDER BY c.f` query returns only documents where `f` is defined.
Operations the code leaves fallible (an `upsert_item` or `query_items`
call that may raise) take an explicit Boolean failure oracle; Python
exceptions become `Except` results, paired with the container states as
they stand when the exception escapes (writes already performed are not
rolled back).  Wall-clock timestamps and the `uuid` fragments of fresh
ids are passed in as arguments.  Python floats (`salience`, the vector
entries, the `0.075` similarity threshold) are modelled as rationals, and
`VectorDistance` — computed by the external store — is an explicit
function parameter.
-/

namespace TravelDB

/-- JSON values as stored in Cosmos documents. -/
inductive JVal where
  | null : JVal
  | bool : Bool → JVal
  | num : ℚ → JVal
  | str : String → JVal
  | arr : List JVal → JVal
  | obj : List (String × JVal) → JVal

/-- A document: a Python dict about to be upserted, i.e. an ordered
association list from field names to JSON values. -/
abbrev Doc := List (String × JVal)

/-- Field lookup (`doc.get(k)` / `c.k` in a query); `none` means the field
is undefined on the document. -/
def getF (d : Doc) (k : String) : Option JVal :=
  (d.find? (fun kv => kv.1 == k)).map Prod.snd

/-- The field's value when it is defined and a string (a Cosmos query
comparison `c.k = @p` against a string parameter is true exactly on such
documents; comparisons against `undefined` or a differently-typed value
are not). -/
def strField (d : Doc) (k : String) : Option String :=
  match getF d k with
  | some (.str s) => some s
  | _ => none

/-- The field's value when it is defined and numeric. -/
def numField (d : Doc) (k : String) : Option ℚ :=
  match getF d k with
  | some (.num q) => some q
  | _ => none

/-- The field's value when it is defined and Boolean. -/
def boolField (d : Doc) (k : String) : Option Bool :=
  match getF d k with
  | some (.bool b) => some b
  | _ => none

/-- Python dict assignment `d[k] = v`: overwrite the existing entry for
`k`, or append a new one. -/
def setF (d : Doc) (k : String) (v : JVal) : Doc :=
  if d.any (fun kv => kv.1 == k) then
    d.map (fun kv => if kv.1 == k then (k, v) else kv)
  else
    d ++ [(k, v)]

/-- Models `container.upsert_item(d)`: replace the document with the same `id`,
or append `d` if no document has that `id`.  Every document this code
writes carries a string `id`, so identity is compared on that string. -/
def upsertItem (c : List Doc) (d : Doc) : List Doc :=
  if c.any (fun x => strField x "id" == strField d "id") then
    c.map (fun x => if strField x "id" == strField d "id" then d else x)
  else
    c ++ [d]

/-! ### Place hybrid search (`query_places`) -/

/-- Python `str.lower()`: lower-case each character. -/
def lowerStr (s : String) : String := ⟨s.data.map Char.toLower⟩

/-- Python `str.strip()`: remove leading and trailing whitespace. -/
def stripStr (s : String) : String :=
  ⟨((s.data.dropWhile Char.isWhitespace).reverse.dropWhile Char.isWhitespace).reverse⟩

/-- Scope normalization `geo_scope_id.lower().strip()` (line 532). -/
def normalizeScope (s : String) : String := stripStr (lowerStr s)

/-- The stored embedding of a place document, read as a numeric vector
(every place document written by the seeders carries one). -/
def embOf (d : Doc) : List ℚ :=
  match getF d "embedding" with
  | some (.arr xs) => xs.filterMap (fun v => match v with | .num q => some q | _ => none)
  | _ => []

/-- The exact-match `WHERE` conjuncts of `query_places` (lines 533-545):
`c.geoScopeId = @geoScope`, always; `c.type = @type` only when
`place_type` is truthy (Python `if place_type:` skips the filter for both
`None` and the empty string); `c.priceTier = @priceTier` whenever
`price_tier is not None`. -/
def placeFilter (geo : String) (place_type : Option String) (price_tier : Option ℚ)
    (d : Doc) : Bool :=
  strField d "geoScopeId" == some geo &&
  (match place_type with
   | none => true
   | some t => t == "" || strField d "type" == some t) &&
  (match price_tier with
   | none => true
   | some p => numField d "priceTier" == some p)

/-- Ordering `ORDER BY VectorDistance(c.embedding, @referenceVector)` —
ascending in the value of the distance expression. -/
def byDistAsc (vd : List ℚ → List ℚ → ℚ) (vecs : List ℚ) (a b : Doc) : Prop :=
  vd (embOf a) vecs ≤ vd (embOf b) vecs

instance (vd : List ℚ → List ℚ → ℚ) (vecs : List ℚ) : DecidableRel (byDistAsc vd vecs) :=
  fun a b => inferInstanceAs (Decidable (_ ≤ _))

instance (vd : List ℚ → List ℚ → ℚ) (vecs : List ℚ) : IsTotal Doc (byDistAsc vd vecs) :=
  ⟨fun _ _ => le_total _ _⟩

instance (vd : List ℚ → List ℚ → ℚ) (vecs : List ℚ) : IsTrans Doc (byDistAsc vd vecs) :=
  ⟨fun _ _ _ h1 h2 => le_trans h1 h2⟩

/-- Model of `query_places` (lines 508-592).  `vd` is the store's `VectorDistance`
function; `places` is the `places_container` global (`none` when Cosmos
was never initialized); `queryFails` says whether the `query_items` call
raises.  The code returns `[]` when the container is falsy (lines
526-528); it re-raises any exception from the query itself (line 589).
The SQL (lines 547-553) keeps documents matching the exact filters whose
distance expression is `> 0.075` (the threshold literal `0.075` is the
rational `mkRat 75 1000`), orders by the distance expression, and takes
the `TOP 5`.  (The `SELECT` clause projects a fixed field list; we
return the whole matching documents, the projection touching none of the
fields the filters and ordering read.) -/
def query_places (vd : List ℚ → List ℚ → ℚ) (places : Option (List Doc))
    (queryFails : Bool) (vectors : List ℚ) (geo_scope_id : String)
    (place_type : Option String) (price_tier : Option ℚ) :
    Except String (List Doc) :=
  match places with
  | none => .ok []
  | some docs =>
    if queryFails then .error "Error querying places"
    else
      let geo := normalizeScope geo_scope_id
      let filtered := docs.filter (fun d =>
        placeFilter geo place_type price_tier d &&
        decide (mkRat 75 1000 < vd (embOf d) vectors))
      .ok ((List.insertionSort (byDistAsc vd vectors) filtered).take 5)

/-! ### Session store -/

/-- The filter shared by the session queries: `c.sessionId = @sessionId AND
c.tenantId = @tenantId AND c.userId = @userId`. -/
def sessionMatches (session_id tenant_id user_id : String) (d : Doc) : Bool :=
  strField d "sessionId" == some session_id &&
  strField d "tenantId" == some tenant_id &&
  strField d "userId" == some user_id

/-- Model of `get_session_by_id` (lines 215-239).  Raises when the
`sessions_container` global is `None` (line 218); runs the exact-match
query and returns the first item, or `None` when there is none; and —
per the `try/except` of lines 220-239 — a failure while running the query
is caught, logged, and turned into a `None` return as well. -/
def get_session_by_id (sessions : Option (List Doc)) (queryFails : Bool)
    (session_id tenant_id user_id : String) : Except String (Option Doc) :=
  match sessions with
  | none => .error "Cosmos DB not available"
  | some docs =>
    if queryFails then .ok none
    else .ok ((docs.filter (sessionMatches session_id tenant_id user_id)).head?)

/-- Model of `update_session_activity` (lines 242-251).  Returns the new
sessions-container state together with the outcome: a `None` container
returns immediately; the lookup goes through `get_session_by_id` (whose
own failures become `None`, skipping the update); when a session is
found, `lastActivityAt` is set to now, `messageCount` is bumped from
`session.get("messageCount", 0)` (every session the code writes stores a
number there) and the document is upserted — that upsert is NOT guarded
by any `try/except`, so its failure escapes. -/
def update_session_activity (sessions : Option (List Doc))
    (queryFails upsertFails : Bool) (session_id tenant_id user_id now : String) :
    Option (List Doc) × Except String Unit :=
  match sessions with
  | none => (none, .ok ())
  | some docs =>
    match get_session_by_id (some docs) queryFails session_id tenant_id user_id with
    | .error e => (some docs, .error e)
    | .ok none => (some docs, .ok ())
    | .ok (some session) =>
      let s1 := setF session "lastActivityAt" (.str now)
      let cnt := (numField session "messageCount").getD 0
      let s2 := setF s1 "messageCount" (.num (cnt + 1))
      if upsertFails then (some docs, .error "upsert failed")
      else (some (upsertItem docs s2), .ok ())

/-! ### Message log -/

/-- The message dict built by `append_message` (lines 275-288). -/
def messageDoc (message_id session_id tenant_id user_id role content : String)
    (tool_call embedding : JVal) (keywords : Option (List String)) (now : String) : Doc :=
  [("id", .str message_id), ("messageId", .str message_id),
   ("sessionId", .str session_id), ("tenantId", .str tenant_id),
   ("userId", .str user_id), ("role", .str role), ("content", .str content),
   ("toolCall", tool_call), ("embedding", embedding), ("ts", .str now),
   ("keywords", .arr ((keywords.getD []).map .str)),
   ("superseded", .bool false)]

/-- Model of `append_message` (lines 258-294).  Raises when the messages
container is `None`; writes the message (that upsert may fail and the
error escapes); then calls `update_session_activity`, with no
`try/except` around it, so an error escaping from it also escapes from
`append_message` — after the message write, which is not rolled back.
Returns (messages state, sessions state, outcome), the outcome carrying
the `messageId` on success. -/
def append_message (messages sessions : Option (List Doc))
    (msgUpsertFails sessQueryFails sessUpsertFails : Bool)
    (message_id now : String)
    (session_id tenant_id user_id role content : String)
    (tool_call embedding : JVal) (keywords : Option (List String)) :
    Option (List Doc) × Option (List Doc) × Except String String :=
  match messages with
  | none => (none, sessions, .error "Cosmos DB not available")
  | some msgs =>
    let message := messageDoc message_id session_id tenant_id user_id role content
      tool_call embedding keywords now
    if msgUpsertFails then (some msgs, sessions, .error "upsert failed")
    else
      let msgs' := upsertItem msgs message
      match update_session_activity sessions sessQueryFails sessUpsertFails
          session_id tenant_id user_id now with
      | (sessions', .error e) => (some msgs', sessions', .error e)
      | (sessions', .ok _) => (some msgs', sessions', .ok message_id)

/-- The timestamp a message is ordered by, for messages carrying one. -/
def tsStr (d : Doc) : String := (strField d "ts").getD ""

/-- Ordering `ORDER BY c.ts DESC`. -/
def byTsDesc (a b : Doc) : Prop := tsStr b ≤ tsStr a

instance : DecidableRel byTsDesc := fun a b => inferInstanceAs (Decidable (_ ≤ _))

instance : IsTotal Doc byTsDesc := ⟨fun _ _ => le_total _ _⟩

instance : IsTrans Doc byTsDesc := ⟨fun _ _ _ h1 h2 => le_trans h2 h1⟩

/-- The superseded filter of `get_session_messages` (line 307): pass
everything when `include_superseded`, else require
`NOT IS_DEFINED(c.superseded) OR c.superseded = false`. -/
def messageVisible (include_superseded : Bool) (d : Doc) : Bool :=
  include_superseded ||
  ((getF d "superseded").isNone || boolField d "superseded" == some false)

/-- Model of `get_session_messages` (lines 297-328): empty when the
container is `None`; otherwise the session-scoped query with the
superseded filter, `ORDER BY c.ts DESC`.  Per Cosmos `ORDER BY`
semantics the query returns only documents on which the sort field is
defined (every message the code writes carries a string `ts`). -/
def get_session_messages (messages : Option (List Doc))
    (session_id tenant_id user_id : String) (include_superseded : Bool) : List Doc :=
  match messages with
  | none => []
  | some msgs =>
    let filtered := msgs.filter (fun d =>
      sessionMatches session_id tenant_id user_id d &&
      messageVisible include_superseded d &&
      (strField d "ts").isSome)
    List.insertionSort byTsDesc filtered

/-! ### Summary store -/

/-- The summary dict built by `create_summary` (lines 351-362); its
`supersedes` field stores `supersedes or []` verbatim. -/
def summaryDoc (summary_id session_id tenant_id user_id : String)
    (span : JVal) (summary_text : String) (embedding : JVal)
    (now : String) (supersedes : Option (List String)) : Doc :=
  [("id", .str summary_id), ("summaryId", .str summary_id),
   ("sessionId", .str session_id), ("tenantId", .str tenant_id),
   ("userId", .str user_id), ("span", span), ("text", .str summary_text),
   ("embedding", embedding), ("createdAt", .str now),
   ("supersedes", .arr ((supersedes.getD []).map .str))]

/-- One iteration of the supersession loop of `create_summary` (lines
368-384): inside a per-id `try/except`, run
`SELECT * FROM c WHERE c.messageId = @msgId` — no session, tenant or user
restriction — take the first item if any, set `superseded = true` and
`ttl = 2592000`, and upsert it back.  An exception anywhere in the body
(`updFails msg_id`) is caught and logged, leaving the container as it
was. -/
def markSuperseded (msgs : List Doc) (updFails : String → Bool) (msg_id : String) :
    List Doc :=
  if updFails msg_id then msgs
  else
    match (msgs.filter (fun d => strField d "messageId" == some msg_id)).head? with
    | none => msgs
    | some msg =>
      let m1 := setF msg "superseded" (.bool true)
      let m2 := setF m1 "ttl" (.num 2592000)
      upsertItem msgs m2

/-- Model of `create_summary` (lines 335-387).  Raises when either
container global is `None` (line 345); writes the summary document first
(line 364 — an unguarded upsert whose failure escapes with nothing
written); then, when `supersedes` is truthy, runs the best-effort
marking loop over its ids in order; finally returns the `summaryId`.
Returns (summaries state, messages state, outcome). -/
def create_summary (summaries messages : Option (List Doc))
    (summaryUpsertFails : Bool) (updFails : String → Bool)
    (summary_id now : String)
    (session_id tenant_id user_id summary_text : String)
    (span : JVal) (embedding : JVal) (supersedes : Option (List String)) :
    Option (List Doc) × Option (List Doc) × Except String String :=
  match summaries, messages with
  | some sums, some msgs =>
    let summary := summaryDoc summary_id session_id tenant_id user_id span
      summary_text embedding now supersedes
    if summaryUpsertFails then (some sums, some msgs, .error "upsert failed")
    else
      let msgs' := (supersedes.getD []).foldl
        (fun acc mid => markSuperseded acc updFails mid) msgs
      (some (upsertItem sums summary), some msgs', .ok summary_id)
  | _, _ => (summaries, messages, .error "Cosmos DB not available")

/-! ### Memory store -/

/-- The memory dict built by `store_memory` (lines 441-460): `ttl` is set
to `7776000` when `memory_type == "episodic"` and is otherwise the Python
`None` the variable was initialized to — and the dict literal always
carries the `"ttl"` key, so the non-episodic document stores an explicit
JSON `null` there. -/
def memoryDoc (memory_id : String) (user_id tenant_id memory_type text : String)
    (facets : JVal) (salience : ℚ) (justification : String)
    (embedding : JVal) (now : String) : Doc :=
  [("id", .str memory_id), ("memoryId", .str memory_id),
   ("userId", .str user_id), ("tenantId", .str tenant_id),
   ("memoryType", .str memory_type), ("text", .str text),
   ("facets", facets), ("embedding", embedding),
   ("salience", .num salience),
   ("ttl", if memory_type == "episodic" then .num 7776000 else .null),
   ("justification", .str justification),
   ("lastUsedAt", .str now), ("extractedAt", .str now)]

/-- Model of `store_memory` (lines 424-464): raises when the memories
container global is `None`, else upserts the memory dict and returns the
`memoryId`. -/
def store_memory (memories : Option (List Doc)) (memory_id now : String)
    (user_id tenant_id memory_type text : String) (facets : JVal)
    (salience : ℚ) (justification : String) (embedding : JVal) :
    Option (List Doc) × Except String String :=
  match memories with
  | none => (none, .error "Cosmos DB not available")
  | some ms =>
    (some (upsertItem ms (memoryDoc memory_id user_id tenant_id memory_type text
      facets salience justification embedding now)), .ok memory_id)

/-- The timestamp a memory is ordered by, for memories carrying one. -/
def createdAtStr (d : Doc) : String := (strField d "createdAt").getD ""

/-- Ordering `ORDER BY c.createdAt DESC`. -/
def byCreatedAtDesc (a b : Doc) : Prop := createdAtStr b ≤ createdAtStr a

instance : DecidableRel byCreatedAtDesc := fun a b => inferInstanceAs (Decidable (_ ≤ _))

instance : IsTotal Doc byCreatedAtDesc := ⟨fun _ _ => le_total _ _⟩

instance : IsTrans Doc byCreatedAtDesc := ⟨fun _ _ _ h1 h2 => le_trans h2 h1⟩

/-- The memory-type conjunct of `query_memories` (lines 477-480):
`c.memoryType IN (...)` is interpolated only when the Python list is
truthy — both `None` and the empty list leave the filter out. -/
def memoryTypeOk (memory_types : Option (List String)) (d : Doc) : Bool :=
  match memory_types with
  | none => true
  | some [] => true
  | some ts =>
    match strField d "memoryType" with
    | some t => ts.contains t
    | none => false

/-- The full `WHERE` of `query_memories`, plus the Cosmos `ORDER BY`
requirement that the sort field be defined on returned documents. -/
def memoryMatches (user_id tenant_id : String) (memory_types : Option (List String))
    (min_salience : ℚ) (d : Doc) : Bool :=
  strField d "userId" == some user_id &&
  strField d "tenantId" == some tenant_id &&
  (match numField d "salience" with
   | some s => decide (min_salience ≤ s)
   | none => false) &&
  memoryTypeOk memory_types d &&
  (strField d "createdAt").isSome

/-- Model of `query_memories` (lines 467-501): empty when the container is
`None`; otherwise `SELECT TOP 5` of the filtered documents ordered by
`c.createdAt DESC`.  No document field other than `userId`, `tenantId`,
`salience`, `memoryType` and `createdAt` is consulted. -/
def query_memories (memories : Option (List Doc)) (user_id tenant_id : String)
    (memory_types : Option (List String)) (min_salience : ℚ) : List Doc :=
  match memories with
  | none => []
  | some ms =>
    (List.insertionSort byCreatedAtDesc
      (ms.filter (memoryMatches user_id tenant_id memory_types min_salience))).take 5

/-! ### Basic lemmas about fields and upserts -/

theorem setF_cons_ne {kv : String × JVal} {k : String} (d : Doc) (v : JVal)
    (hk : (kv.1 == k) = false) : setF (kv :: d) k v = kv :: setF d k v := by
  simp only [setF, List.any_cons, hk, Bool.false_or]
  split
  · simp only [List.map_cons]
    rw [if_neg (by simp [hk])]
  · simp

theorem getF_cons_pos (kv : String × JVal) (d : Doc) (k : String)
    (h : (kv.1 == k) = true) : getF (kv :: d) k = some kv.2 := by
  unfold getF
  rw [@List.find?_cons_of_pos _ (fun x => x.1 == k) kv d h]
  rfl

theorem getF_cons_neg (kv : String × JVal) (d : Doc) (k : String)
    (h : (kv.1 == k) = false) : getF (kv :: d) k = getF d k := by
  unfold getF
  rw [@List.find?_cons_of_neg _ (fun x => x.1 == k) kv d (by simp [h])]

theorem getF_setF_self (d : Doc) (k : String) (v : JVal) :
    getF (setF d k v) k = some v := by
  induction d with
  | nil => simp [setF, getF]
  | cons kv d ih =>
    by_cases hk : (kv.1 == k) = true
    · have hany : ((kv.1 == k) || d.any fun kv => kv.1 == k) = true := by simp [hk]
      simp only [setF, List.any_cons, hany, if_true, List.map_cons]
      rw [if_pos hk, getF_cons_pos _ _ _ (by simp)]
    · rw [Bool.not_eq_true] at hk
      rw [setF_cons_ne d v hk, getF_cons_neg _ _ _ hk]
      exact ih

theorem getF_map_replace_ne (d : Doc) (k k' : String) (v : JVal) (hne : k' ≠ k) :
    getF (d.map (fun kv => if kv.1 == k then (k, v) else kv)) k' = getF d k' := by
  induction d with
  | nil => rfl
  | cons kv d ih =>
    simp only [List.map_cons]
    by_cases hk : (kv.1 == k) = true
    · rw [if_pos hk]
      have h1 : ((k, v).1 == k') = false := beq_eq_false_iff_ne.mpr (Ne.symm hne)
      have h2 : (kv.1 == k') = false := by
        rw [show kv.1 = k from eq_of_beq hk]; exact h1
      rw [getF_cons_neg _ _ _ h1, getF_cons_neg _ _ _ h2]
      exact ih
    · rw [if_neg hk]
      by_cases hk' : (kv.1 == k') = true
      · rw [getF_cons_pos _ _ _ hk', getF_cons_pos _ _ _ hk']
      · rw [Bool.not_eq_true] at hk'
        rw [getF_cons_neg _ _ _ hk', getF_cons_neg _ _ _ hk']
        exact ih

theorem getF_append_ne (d : Doc) (k k' : String) (v : JVal) (hne : k' ≠ k) :
    getF (d ++ [(k, v)]) k' = getF d k' := by
  induction d with
  | nil =>
    unfold getF
    simp [List.find?, beq_eq_false_iff_ne.mpr (Ne.symm hne)]
  | cons kv d ih =>
    by_cases hk' : (kv.1 == k') = true
    · rw [List.cons_append, getF_cons_pos _ _ _ hk', getF_cons_pos _ _ _ hk']
    · rw [Bool.not_eq_true] at hk'
      rw [List.cons_append, getF_cons_neg _ _ _ hk', getF_cons_neg _ _ _ hk']
      exact ih

theorem getF_setF_ne (d : Doc) (k k' : String) (v : JVal) (hne : k' ≠ k) :
    getF (setF d k v) k' = getF d k' := by
  unfold setF
  split
  · exact getF_map_replace_ne d k k' v hne
  · exact getF_append_ne d k k' v hne

theorem strField_setF_ne (d : Doc) (k k' : String) (v : JVal) (hne : k' ≠ k) :
    strField (setF d k v) k' = strField d k' := by
  unfold strField; rw [getF_setF_ne d k k' v hne]

theorem numField_setF_ne (d : Doc) (k k' : String) (v : JVal) (hne : k' ≠ k) :
    numField (setF d k v) k' = numField d k' := by
  unfold numField; rw [getF_setF_ne d k k' v hne]

theorem boolField_setF_ne (d : Doc) (k k' : String) (v : JVal) (hne : k' ≠ k) :
    boolField (setF d k v) k' = boolField d k' := by
  unfold boolField; rw [getF_setF_ne d k k' v hne]

theorem self_mem_upsertItem (c : List Doc) (d : Doc) : d ∈ upsertItem c d := by
  unfold upsertItem
  split
  · next h =>
    rcases List.any_eq_true.mp h with ⟨x, hx, hbeq⟩
    exact List.mem_map.mpr ⟨x, hx, by simp [hbeq]⟩
  · exact List.mem_append_right _ (List.mem_singleton.mpr rfl)

theorem mem_upsertItem_of_mem_ne (c : List Doc) (d w : Doc) (hw : w ∈ c)
    (hne : strField w "id" ≠ strField d "id") : w ∈ upsertItem c d := by
  unfold upsertItem
  split
  · exact List.mem_map.mpr ⟨w, hw, by simp [beq_eq_false_iff_ne.mpr hne]⟩
  · exact List.mem_append_left _ hw

theorem map_id_upsertItem (c : List Doc) (d x0 : Doc) (hx0 : x0 ∈ c)
    (hid : strField x0 "id" = strField d "id") :
    (upsertItem c d).map (fun y => strField y "id") = c.map (fun y => strField y "id") := by
  unfold upsertItem
  rw [if_pos (List.any_eq_true.mpr ⟨x0, hx0, by simp [hid]⟩), List.map_map]
  apply List.map_congr_left
  intro x _
  simp only [Function.comp_apply]
  by_cases h : (strField x "id" == strField d "id") = true
  · rw [if_pos h]
    exact (eq_of_beq h).symm
  · rw [if_neg h]

/-! ### C1 and C5: place hybrid search -/

/-- A concrete one-place Paris catalog used to exercise `query_places`. -/
def parisPlace : Doc :=
  [("id", .str "place_001"), ("geoScopeId", .str "paris"),
   ("name", .str "Musee dOrsay"), ("type", .str "museum"),
   ("embedding", .arr [.num 1, .num 0])]

/-- C1 fails on the code: the SQL predicate is
`VectorDistance(c.embedding, @referenceVector) > 0.075`, so `query_places`
RETAINS exactly the candidates whose distance value EXCEEDS the 0.075
threshold.  Concretely, with every distance equal to 1/10, the Paris place
is returned even though its distance 1/10 is strictly greater than
75/1000 — contradicting "no returned place's vector distance exceeds the
threshold 0.075". -/
theorem c1_counterexample :
    query_places (fun _ _ => mkRat 1 10) (some [parisPlace]) false [] " Paris " none none
      = .ok [parisPlace] ∧
    ¬ ((fun (_ _ : List ℚ) => mkRat 1 10) (embOf parisPlace) [] ≤ mkRat 75 1000) := by
  constructor
  · rfl
  · decide

/-- C1 (amended): when the places container is initialized and the ranked
query succeeds, `query_places` returns at most K = 5 places; every
returned place has `geoScopeId` equal to the lower-cased,
whitespace-stripped requested scope and a vector distance from the query
vector STRICTLY GREATER than the configured threshold 0.075 (the code
keeps, rather than discards, candidates above the threshold); and the
results are ordered by ascending vector distance. -/
theorem c1_query_places_amended (vd : List ℚ → List ℚ → ℚ) (docs : List Doc)
    (vectors : List ℚ) (geo_scope_id : String) (place_type : Option String)
    (price_tier : Option ℚ) (items : List Doc)
    (h : query_places vd (some docs) false vectors geo_scope_id place_type price_tier
        = .ok items) :
    items.length ≤ 5 ∧
    (∀ d ∈ items, strField d "geoScopeId" = some (normalizeScope geo_scope_id) ∧
      mkRat 75 1000 < vd (embOf d) vectors) ∧
    items.Pairwise (byDistAsc vd vectors) := by
  have h' : Except.ok (ε := String) ((List.insertionSort (byDistAsc vd vectors)
      (docs.filter (fun d =>
        placeFilter (normalizeScope geo_scope_id) place_type price_tier d &&
        decide (mkRat 75 1000 < vd (embOf d) vectors)))).take 5) = .ok items := by
    rw [← h]; rfl
  have hitems := (Except.ok.inj h').symm
  subst hitems
  refine ⟨List.length_take_le _ _, ?_, ?_⟩
  · intro d hd
    have hd2 : d ∈ docs.filter (fun d =>
        placeFilter (normalizeScope geo_scope_id) place_type price_tier d &&
        decide (mkRat 75 1000 < vd (embOf d) vectors)) :=
      (List.mem_insertionSort _).mp (List.mem_of_mem_take hd)
    have hd3 := (List.mem_filter.mp hd2).2
    rw [Bool.and_eq_true] at hd3
    have hgeo : (strField d "geoScopeId" == some (normalizeScope geo_scope_id)) = true := by
      have := hd3.1
      unfold placeFilter at this
      rw [Bool.and_eq_true, Bool.and_eq_true] at this
      exact this.1.1
    exact ⟨eq_of_beq hgeo, of_decide_eq_true hd3.2⟩
  · exact (List.sorted_insertionSort _ _).sublist (List.take_sublist _ _)

/-- C1 witness: the amended theorem applied to the concrete one-place
catalog with all distances equal to 1/10. -/
theorem c1_query_places_amended_witness :
    query_places (fun _ _ => mkRat 1 10) (some [parisPlace]) false [] "PARIS" none none
        = .ok [parisPlace] ∧
    (([parisPlace] : List Doc).length ≤ 5 ∧
      (∀ d ∈ ([parisPlace] : List Doc),
        strField d "geoScopeId" = some (normalizeScope "PARIS") ∧
        mkRat 75 1000 < (fun (_ _ : List ℚ) => mkRat 1 10) (embOf d) []) ∧
      ([parisPlace] : List Doc).Pairwise (byDistAsc (fun _ _ => mkRat 1 10) [])) :=
  ⟨rfl, c1_query_places_amended (fun _ _ => mkRat 1 10) [parisPlace] [] "PARIS"
    none none [parisPlace] rfl⟩

/-- C5 fails on the code: when the places container was never initialized
(Cosmos unavailable from the start), `query_places` logs and returns an
empty list rather than propagating an error — exactly the silent
degradation into "no places found" that the claim rules out. -/
theorem c5_counterexample :
    query_places (fun _ _ => 0) none false [] "paris" none none = .ok [] := rfl

/-- C5 (amended): a failure during the ranked query itself is re-raised to
the caller, never swallowed; but an uninitialized places container
short-circuits to an empty result, so that particular unavailable-store
case is returned as `[]`, indistinguishable from "no places found". -/
theorem c5_query_places_errors_amended (vd : List ℚ → List ℚ → ℚ)
    (docs : List Doc) (vectors : List ℚ) (geo_scope_id : String)
    (place_type : Option String) (price_tier : Option ℚ) :
    (∃ e, query_places vd (some docs) true vectors geo_scope_id place_type price_tier
        = .error e) ∧
    (∀ qf, query_places vd none qf vectors geo_scope_id place_type price_tier = .ok []) :=
  ⟨⟨"Error querying places", rfl⟩, fun _ => rfl⟩

/-! ### C7: memory TTL policy -/

/-- C7 fails on the code: `store_memory` initializes `ttl = None` and the
memory dict literal always carries the `"ttl"` key, so a `declarative`
memory is stored with an explicit `null` ttl field — the "no expiration"
value is NOT normalized away and the field is NOT omitted.  (A `-1 →
remove the field` normalization exists only in the bulk data loader, not
in `store_memory`.) -/
theorem c7_counterexample :
    (store_memory (some []) "mem_1" "2025-01-01T00:00:00Z" "u1" "t1" "declarative"
        "prefers window seats" .null 1 "stated directly" .null).1
      = some [memoryDoc "mem_1" "u1" "t1" "declarative" "prefers window seats"
          .null 1 "stated directly" .null "2025-01-01T00:00:00Z"] ∧
    getF (memoryDoc "mem_1" "u1" "t1" "declarative" "prefers window seats"
        .null 1 "stated directly" .null "2025-01-01T00:00:00Z") "ttl" = some .null ∧
    getF (memoryDoc "mem_1" "u1" "t1" "declarative" "prefers window seats"
        .null 1 "stated directly" .null "2025-01-01T00:00:00Z") "ttl" ≠ none :=
  ⟨rfl, rfl, Option.some_ne_none JVal.null⟩

/-- C7 (amended): `store_memory` assigns ttl purely as a function of
`memory_type`: `episodic` yields ttl = 7,776,000 seconds (90 days), while
every other type yields a ttl field that is present with an explicit null
value (the Python `None` is serialized into the stored document rather
than the field being omitted); the document is upserted and the
`memoryId` returned. -/
theorem c7_store_memory_amended (ms : List Doc)
    (memory_id now user_id tenant_id memory_type text : String) (facets : JVal)
    (salience : ℚ) (justification : String) (embedding : JVal) :
    store_memory (some ms) memory_id now user_id tenant_id memory_type text
        facets salience justification embedding
      = (some (upsertItem ms (memoryDoc memory_id user_id tenant_id memory_type
          text facets salience justification embedding now)), .ok memory_id) ∧
    getF (memoryDoc memory_id user_id tenant_id memory_type text facets salience
        justification embedding now) "ttl"
      = some (if memory_type == "episodic" then .num 7776000 else .null) :=
  ⟨rfl, rfl⟩

/-! ### C9: session lookup error taxonomy -/

/-- C9 fails on the code: `get_session_by_id` returns `None` BOTH for a
well-formed lookup with no match AND when the query itself fails — the
`except` clause of lines 237-239 catches the error and returns `None` —
so store unreachability during the lookup is conflated with not-found
rather than propagated as a distinct error. -/
theorem c9_counterexample :
    get_session_by_id (some []) true "session_1" "t1" "u1" = .ok none ∧
    get_session_by_id (some []) false "session_1" "t1" "u1" = .ok none :=
  ⟨rfl, rfl⟩

/-- C9 (amended): a well-formed lookup with no matching session yields the
explicit absent value `None`, and a never-initialized store client raises
a distinct "Cosmos DB not available" error before any query; but a
failure of the query itself is caught and ALSO returned as `None`,
conflated with not-found. -/
theorem c9_get_session_amended (docs : List Doc)
    (session_id tenant_id user_id : String)
    (hnone : docs.filter (sessionMatches session_id tenant_id user_id) = []) :
    (∃ e, get_session_by_id none false session_id tenant_id user_id = .error e) ∧
    get_session_by_id (some docs) false session_id tenant_id user_id = .ok none ∧
    get_session_by_id (some docs) true session_id tenant_id user_id = .ok none := by
  refine ⟨⟨"Cosmos DB not available", rfl⟩, ?_, rfl⟩
  simp [get_session_by_id, hnone]

/-- C9 witness: the amended theorem applied to the empty sessions
container. -/
theorem c9_get_session_amended_witness :
    (([] : List Doc).filter (sessionMatches "session_1" "t1" "u1") = []) ∧
    ((∃ e, get_session_by_id none false "session_1" "t1" "u1" = .error e) ∧
      get_session_by_id (some []) false "session_1" "t1" "u1" = .ok none ∧
      get_session_by_id (some []) true "session_1" "t1" "u1" = .ok none) :=
  ⟨rfl, c9_get_session_amended [] "session_1" "t1" "u1" rfl⟩

/-! ### C6: message append vs session-activity failures -/

/-- A concrete session document used to exercise the activity update. -/
def activeSession : Doc :=
  [("id", .str "session_1"), ("sessionId", .str "session_1"),
   ("tenantId", .str "t1"), ("userId", .str "u1"), ("messageCount", .num 0)]

/-- C6 fails on the code: `append_message` wraps nothing in a `try`, and
inside `update_session_activity` only the session LOOKUP is protected (by
`get_session_by_id`'s own except clause) — the final
`sessions_container.upsert_item(session)` is not.  When that secondary
upsert raises, the exception escapes `append_message`: the message
document has already been written, but the caller gets the error instead
of the `messageId`. -/
theorem c6_counterexample :
    (append_message (some []) (some [activeSession]) false false true "msg_1"
        "2025-01-02T00:00:00Z" "session_1" "t1" "u1" "user" "hello" .null .null
        none).2.2 = .error "upsert failed" ∧
    (append_message (some []) (some [activeSession]) false false true "msg_1"
        "2025-01-02T00:00:00Z" "session_1" "t1" "u1" "user" "hello" .null .null
        none).1 = some [messageDoc "msg_1" "session_1" "t1" "u1" "user" "hello"
          .null .null none "2025-01-02T00:00:00Z"] :=
  ⟨rfl, rfl⟩

/-- C6 (amended): a failure of the session LOOKUP inside the activity
update is caught and suppressed — the message is written and its
`messageId` returned; but a failure of the final session UPSERT
propagates out of `append_message`, so the call errors even though the
message document was already written. -/
theorem c6_append_message_amended (msgs sdocs : List Doc)
    (message_id now session_id tenant_id user_id role content : String)
    (tool_call embedding : JVal) (keywords : Option (List String)) :
    (append_message (some msgs) (some sdocs) false true false message_id now
        session_id tenant_id user_id role content tool_call embedding keywords
      = (some (upsertItem msgs (messageDoc message_id session_id tenant_id user_id
          role content tool_call embedding keywords now)), some sdocs,
         .ok message_id)) ∧
    (∀ s, (sdocs.filter (sessionMatches session_id tenant_id user_id)).head? = some s →
      append_message (some msgs) (some sdocs) false false true message_id now
          session_id tenant_id user_id role content tool_call embedding keywords
        = (some (upsertItem msgs (messageDoc message_id session_id tenant_id user_id
            role content tool_call embedding keywords now)), some sdocs,
           .error "upsert failed")) := by
  constructor
  · rfl
  · intro s hs
    simp [append_message, update_session_activity, get_session_by_id, hs]

/-- C6 witness: the amended theorem applied to the one-session store whose
activity upsert fails. -/
theorem c6_append_message_amended_witness :
    (([activeSession] : List Doc).filter
        (sessionMatches "session_1" "t1" "u1")).head? = some activeSession ∧
    append_message (some []) (some [activeSession]) false false true "msg_1"
        "2025-01-02T00:00:00Z" "session_1" "t1" "u1" "user" "hello" .null .null none
      = (some (upsertItem [] (messageDoc "msg_1" "session_1" "t1" "u1" "user"
          "hello" .null .null none "2025-01-02T00:00:00Z")), some [activeSession],
         .error "upsert failed") :=
  ⟨rfl, (c6_append_message_amended [] [activeSession] "msg_1" "2025-01-02T00:00:00Z"
    "session_1" "t1" "u1" "user" "hello" .null .null none).2 activeSession rfl⟩

/-! ### C4: superseded messages and list queries -/

theorem getF_of_boolField (d : Doc) (k : String) (b : Bool)
    (h : boolField d k = some b) : getF d k = some (.bool b) := by
  unfold boolField at h
  cases hg : getF d k with
  | none => rw [hg] at h; exact absurd h (by simp)
  | some v =>
    rw [hg] at h
    cases v <;> simp_all

/-- C4: once a message's `superseded` flag is `true`, every
`get_session_messages` call with `include_superseded = false` excludes it
— whatever session scope is queried — while the call on the message's own
scope with `include_superseded = true` still returns it; and every result
list of `get_session_messages` is ordered descending by `ts`. -/
theorem c4_superseded_filtering (msgs : List Doc) (m : Doc)
    (session_id tenant_id user_id : String)
    (hm : m ∈ msgs)
    (hsup : boolField m "superseded" = some true)
    (hsess : sessionMatches session_id tenant_id user_id m = true)
    (hts : (strField m "ts").isSome = true) :
    (∀ sid tid uid, m ∉ get_session_messages (some msgs) sid tid uid false) ∧
    m ∈ get_session_messages (some msgs) session_id tenant_id user_id true ∧
    (∀ (mm : Option (List Doc)) sid tid uid inc,
      (get_session_messages mm sid tid uid inc).Pairwise byTsDesc) := by
  refine ⟨?_, ?_, ?_⟩
  · intro sid tid uid hmem
    have h0 : m ∈ List.insertionSort byTsDesc (msgs.filter (fun d =>
        sessionMatches sid tid uid d && messageVisible false d &&
        (strField d "ts").isSome)) := hmem
    have h2 := (List.mem_filter.mp ((List.mem_insertionSort _).mp h0)).2
    rw [Bool.and_eq_true, Bool.and_eq_true] at h2
    have hv := h2.1.2
    unfold messageVisible at hv
    rw [Bool.false_or, Bool.or_eq_true] at hv
    rcases hv with hv | hv
    · rw [getF_of_boolField m "superseded" true hsup] at hv
      exact absurd hv (by simp)
    · have hfalse : boolField m "superseded" = some false := eq_of_beq hv
      rw [hsup] at hfalse
      exact absurd hfalse (by simp)
  · show m ∈ List.insertionSort byTsDesc (msgs.filter (fun d =>
      sessionMatches session_id tenant_id user_id d && messageVisible true d &&
      (strField d "ts").isSome))
    rw [List.mem_insertionSort]
    exact List.mem_filter.mpr ⟨hm, by simp [hsess, messageVisible, hts]⟩
  · intro mm sid tid uid inc
    cases mm with
    | none => exact List.Pairwise.nil
    | some ms => exact List.sorted_insertionSort byTsDesc _

/-- A concrete superseded message for exercising the list queries. -/
def supersededMsg : Doc :=
  [("id", .str "msg_1"), ("messageId", .str "msg_1"),
   ("sessionId", .str "session_1"), ("tenantId", .str "t1"),
   ("userId", .str "u1"), ("ts", .str "2025-01-01T00:00:00Z"),
   ("superseded", .bool true)]

/-- C4 witness: the theorem applied to a store holding one superseded
message. -/
theorem c4_superseded_filtering_witness :
    supersededMsg ∈ ([supersededMsg] : List Doc) ∧
    boolField supersededMsg "superseded" = some true ∧
    sessionMatches "session_1" "t1" "u1" supersededMsg = true ∧
    (strField supersededMsg "ts").isSome = true ∧
    supersededMsg ∉ get_session_messages (some [supersededMsg]) "session_1" "t1" "u1" false ∧
    supersededMsg ∈ get_session_messages (some [supersededMsg]) "session_1" "t1" "u1" true :=
  ⟨List.mem_singleton.mpr rfl, rfl, rfl, rfl,
    (c4_superseded_filtering [supersededMsg] supersededMsg "session_1" "t1" "u1"
      (List.mem_singleton.mpr rfl) rfl rfl rfl).1 "session_1" "t1" "u1",
    (c4_superseded_filtering [supersededMsg] supersededMsg "session_1" "t1" "u1"
      (List.mem_singleton.mpr rfl) rfl rfl rfl).2.1⟩

/-! ### C10: cross-session supersession in create_summary -/

/-- C10: the supersession step of `create_summary` looks a message up by
`messageId` alone — no sessionId, tenantId or userId restriction — and
marks the FIRST match in the whole message store, whatever its own scope
fields say: the marked document keeps its original `sessionId`,
`tenantId` and `userId`, which need not equal the summary's. -/
theorem c10_supersedes_ignores_scope (sums msgs : List Doc)
    (updFails : String → Bool)
    (summary_id now session_id tenant_id user_id summary_text : String)
    (span embedding : JVal) (msg_id : String) (d : Doc)
    (hfind : (msgs.filter (fun x => strField x "messageId" == some msg_id)).head?
        = some d)
    (hfail : updFails msg_id = false) :
    create_summary (some sums) (some msgs) false updFails summary_id now session_id
        tenant_id user_id summary_text span embedding (some [msg_id])
      = (some (upsertItem sums (summaryDoc summary_id session_id tenant_id user_id
          span summary_text embedding now (some [msg_id]))),
         some (upsertItem msgs
           (setF (setF d "superseded" (.bool true)) "ttl" (.num 2592000))),
         .ok summary_id) ∧
    strField (setF (setF d "superseded" (.bool true)) "ttl" (.num 2592000)) "sessionId"
      = strField d "sessionId" ∧
    strField (setF (setF d "superseded" (.bool true)) "ttl" (.num 2592000)) "tenantId"
      = strField d "tenantId" ∧
    strField (setF (setF d "superseded" (.bool true)) "ttl" (.num 2592000)) "userId"
      = strField d "userId" := by
  refine ⟨?_, ?_, ?_, ?_⟩
  · rw [List.filter_head?] at hfind
    simp [create_summary, markSuperseded, hfail, hfind]
  · rw [strField_setF_ne _ _ _ _ (by decide), strField_setF_ne _ _ _ _ (by decide)]
  · rw [strField_setF_ne _ _ _ _ (by decide), strField_setF_ne _ _ _ _ (by decide)]
  · rw [strField_setF_ne _ _ _ _ (by decide), strField_setF_ne _ _ _ _ (by decide)]

/-- A concrete message belonging to a different session/tenant/user than
the summary that supersedes it. -/
def otherSessionMsg : Doc :=
  [("id", .str "msg_9"), ("messageId", .str "msg_9"),
   ("sessionId", .str "session_OTHER"), ("tenantId", .str "t2"),
   ("userId", .str "u2"), ("ts", .str "2025-01-01T00:00:00Z"),
   ("superseded", .bool false)]

/-- C10 witness: a summary created for session_1/t1/u1 marks the message
of session_OTHER/t2/u2, the only one whose messageId matches. -/
theorem c10_supersedes_ignores_scope_witness :
    (([otherSessionMsg] : List Doc).filter
        (fun x => strField x "messageId" == some "msg_9")).head? = some otherSessionMsg ∧
    ((fun _ => false) "msg_9") = false ∧
    strField otherSessionMsg "sessionId" = some "session_OTHER" ∧
    ("session_OTHER" : String) ≠ "session_1" ∧
    (create_summary (some []) (some [otherSessionMsg]) false (fun _ => false)
        "summary_1" "2025-01-03T00:00:00Z" "session_1" "t1" "u1" "recap" .null .null
        (some ["msg_9"])
      = (some (upsertItem [] (summaryDoc "summary_1" "session_1" "t1" "u1"
          .null "recap" .null "2025-01-03T00:00:00Z" (some ["msg_9"]))),
         some (upsertItem [otherSessionMsg]
           (setF (setF otherSessionMsg "superseded" (.bool true)) "ttl" (.num 2592000))),
         .ok "summary_1") ∧
      strField (setF (setF otherSessionMsg "superseded" (.bool true)) "ttl"
          (.num 2592000)) "sessionId" = strField otherSessionMsg "sessionId" ∧
      strField (setF (setF otherSessionMsg "superseded" (.bool true)) "ttl"
          (.num 2592000)) "tenantId" = strField otherSessionMsg "tenantId" ∧
      strField (setF (setF otherSessionMsg "superseded" (.bool true)) "ttl"
          (.num 2592000)) "userId" = strField otherSessionMsg "userId") :=
  ⟨rfl, rfl, rfl, by decide,
    c10_supersedes_ignores_scope [] [otherSessionMsg] (fun _ => false) "summary_1"
      "2025-01-03T00:00:00Z" "session_1" "t1" "u1" "recap" .null .null "msg_9"
      otherSessionMsg rfl rfl⟩

/-! ### C3: best-effort supersession marking -/

/-- The supersession marks carried by a message document for `msg_id`. -/
def markedFor (msg_id : String) (d : Doc) : Prop :=
  strField d "messageId" = some msg_id ∧
  boolField d "superseded" = some true ∧
  numField d "ttl" = some 2592000

theorem markedFor_marks (msg : Doc) (msg_id : String)
    (hmsg : strField msg "messageId" = some msg_id) :
    markedFor msg_id (setF (setF msg "superseded" (.bool true)) "ttl" (.num 2592000)) := by
  refine ⟨?_, ?_, ?_⟩
  · rw [strField_setF_ne _ _ _ _ (by decide), strField_setF_ne _ _ _ _ (by decide)]
    exact hmsg
  · unfold boolField
    rw [getF_setF_ne _ _ _ _ (by decide), getF_setF_self]
  · unfold numField
    rw [getF_setF_self]

theorem markSuperseded_map_id (msgs : List Doc) (f : String → Bool) (mid : String) :
    (markSuperseded msgs f mid).map (fun y => strField y "id")
      = msgs.map (fun y => strField y "id") := by
  unfold markSuperseded
  split
  · rfl
  · rw [List.filter_head?]
    cases hfind : msgs.find? (fun d => strField d "messageId" == some mid) with
    | none => rfl
    | some msg =>
      apply map_id_upsertItem _ _ msg (List.mem_of_find?_eq_some hfind)
      rw [strField_setF_ne _ _ _ _ (by decide), strField_setF_ne _ _ _ _ (by decide)]

theorem markSuperseded_preserves_marked (msgs : List Doc) (f : String → Bool)
    (mid mid' : String)
    (hnodup : (msgs.map (fun y => strField y "id")).Nodup)
    (hP : ∃ w ∈ msgs, markedFor mid w) :
    ∃ w ∈ markSuperseded msgs f mid', markedFor mid w := by
  obtain ⟨w, hw, hwP⟩ := hP
  unfold markSuperseded
  split
  · exact ⟨w, hw, hwP⟩
  · rw [List.filter_head?]
    cases hfind : msgs.find? (fun d => strField d "messageId" == some mid') with
    | none => exact ⟨w, hw, hwP⟩
    | some msg =>
      have hmem : msg ∈ msgs := List.mem_of_find?_eq_some hfind
      by_cases hid : strField w "id"
          = strField (setF (setF msg "superseded" (.bool true)) "ttl" (.num 2592000)) "id"
      · have hid2 : strField (setF (setF msg "superseded" (.bool true)) "ttl"
            (.num 2592000)) "id" = strField msg "id" := by
          rw [strField_setF_ne _ _ _ _ (by decide), strField_setF_ne _ _ _ _ (by decide)]
        have hweq : w = msg := List.inj_on_of_nodup_map hnodup hw hmem
          (by show strField w "id" = strField msg "id"; rw [hid, hid2])
        have hmid : strField msg "messageId" = some mid := by
          rw [← hweq]; exact hwP.1
        exact ⟨_, self_mem_upsertItem _ _, markedFor_marks msg mid hmid⟩
      · exact ⟨w, mem_upsertItem_of_mem_ne _ _ _ hw hid, hwP⟩

theorem markSuperseded_preserves_exists (msgs : List Doc) (f : String → Bool)
    (mid mid' : String)
    (hnodup : (msgs.map (fun y => strField y "id")).Nodup)
    (hex : ∃ w ∈ msgs, strField w "messageId" = some mid) :
    ∃ w ∈ markSuperseded msgs f mid', strField w "messageId" = some mid := by
  obtain ⟨w, hw, hwid⟩ := hex
  unfold markSuperseded
  split
  · exact ⟨w, hw, hwid⟩
  · rw [List.filter_head?]
    cases hfind : msgs.find? (fun d => strField d "messageId" == some mid') with
    | none => exact ⟨w, hw, hwid⟩
    | some msg =>
      have hmem : msg ∈ msgs := List.mem_of_find?_eq_some hfind
      by_cases hid : strField w "id"
          = strField (setF (setF msg "superseded" (.bool true)) "ttl" (.num 2592000)) "id"
      · have hid2 : strField (setF (setF msg "superseded" (.bool true)) "ttl"
            (.num 2592000)) "id" = strField msg "id" := by
          rw [strField_setF_ne _ _ _ _ (by decide), strField_setF_ne _ _ _ _ (by decide)]
        have hweq : w = msg := List.inj_on_of_nodup_map hnodup hw hmem
          (by show strField w "id" = strField msg "id"; rw [hid, hid2])
        refine ⟨_, self_mem_upsertItem _ _, ?_⟩
        rw [strField_setF_ne _ _ _ _ (by decide), strField_setF_ne _ _ _ _ (by decide),
          ← hweq]
        exact hwid
      · exact ⟨w, mem_upsertItem_of_mem_ne _ _ _ hw hid, hwid⟩

theorem markSuperseded_establishes (msgs : List Doc) (f : String → Bool) (mid : String)
    (hf : f mid = false)
    (hex : ∃ w ∈ msgs, strField w "messageId" = some mid) :
    ∃ w ∈ markSuperseded msgs f mid, markedFor mid w := by
  unfold markSuperseded
  rw [if_neg (by simp [hf])]
  rw [List.filter_head?]
  cases hfind : msgs.find? (fun d => strField d "messageId" == some mid) with
  | none =>
    obtain ⟨w, hw, hwid⟩ := hex
    have := List.find?_eq_none.mp hfind w hw
    rw [hwid] at this
    simp at this
  | some msg =>
    have hpred := List.find?_some hfind
    exact ⟨_, self_mem_upsertItem _ _, markedFor_marks msg mid (eq_of_beq hpred)⟩

theorem foldl_markSuperseded_marked (l : List String) (msgs : List Doc)
    (f : String → Bool) (mid : String)
    (hnodup : (msgs.map (fun y => strField y "id")).Nodup)
    (hP : ∃ w ∈ msgs, markedFor mid w) :
    ∃ w ∈ l.foldl (fun acc m => markSuperseded acc f m) msgs, markedFor mid w := by
  induction l generalizing msgs with
  | nil => exact hP
  | cons a l ih =>
    rw [List.foldl_cons]
    exact ih (markSuperseded msgs f a)
      (by rw [markSuperseded_map_id]; exact hnodup)
      (markSuperseded_preserves_marked msgs f mid a hnodup hP)

theorem foldl_markSuperseded_marks (l : List String) (msgs : List Doc)
    (f : String → Bool) (mid : String)
    (hnodup : (msgs.map (fun y => strField y "id")).Nodup)
    (hmem : mid ∈ l) (hf : f mid = false)
    (hex : ∃ w ∈ msgs, strField w "messageId" = some mid) :
    ∃ w ∈ l.foldl (fun acc m => markSuperseded acc f m) msgs, markedFor mid w := by
  induction l generalizing msgs with
  | nil => exact absurd hmem (List.not_mem_nil _)
  | cons a l ih =>
    rw [List.foldl_cons]
    by_cases ha : a = mid
    · subst ha
      exact foldl_markSuperseded_marked l _ f a
        (by rw [markSuperseded_map_id]; exact hnodup)
        (markSuperseded_establishes msgs f a hf hex)
    · have hmem' : mid ∈ l := by
        rcases List.mem_cons.mp hmem with h | h
        · exact absurd h.symm ha
        · exact h
      exact ih (markSuperseded msgs f a)
        (by rw [markSuperseded_map_id]; exact hnodup) hmem'
        (markSuperseded_preserves_exists msgs f mid a hnodup hex)

/-- C3: `create_summary` returns the `summaryId`, the summary document is
in the written summaries container, and the supersession loop is
best-effort: every id in `supersedes` whose update does not fail and
which matches a stored message ends up marked `superseded = true` with
`ttl = 2592000` in the final message store, regardless of which other
updates fail — no failure aborts the remaining updates or removes the
summary. -/
theorem c3_create_summary_best_effort (sums msgs : List Doc)
    (updFails : String → Bool)
    (summary_id now session_id tenant_id user_id summary_text : String)
    (span embedding : JVal) (supersedes : List String)
    (hnodup : (msgs.map (fun y => strField y "id")).Nodup) :
    (create_summary (some sums) (some msgs) false updFails summary_id now
        session_id tenant_id user_id summary_text span embedding
        (some supersedes)).2.2 = .ok summary_id ∧
    (∃ sums', (create_summary (some sums) (some msgs) false updFails summary_id now
        session_id tenant_id user_id summary_text span embedding
        (some supersedes)).1 = some sums' ∧
      summaryDoc summary_id session_id tenant_id user_id span summary_text
        embedding now (some supersedes) ∈ sums') ∧
    (∀ mid ∈ supersedes, updFails mid = false →
      (∃ w ∈ msgs, strField w "messageId" = some mid) →
      ∃ msgs', (create_summary (some sums) (some msgs) false updFails summary_id
          now session_id tenant_id user_id summary_text span embedding
          (some supersedes)).2.1 = some msgs' ∧
        ∃ w ∈ msgs', markedFor mid w) := by
  refine ⟨rfl, ⟨_, rfl, self_mem_upsertItem _ _⟩, ?_⟩
  intro mid hmid hf hex
  exact ⟨_, rfl, foldl_markSuperseded_marks supersedes msgs updFails mid hnodup hmid hf hex⟩

/-- A first concrete message for the best-effort scenario. -/
def msgA : Doc :=
  [("id", .str "msg_a"), ("messageId", .str "msg_a"),
   ("sessionId", .str "session_1"), ("tenantId", .str "t1"),
   ("userId", .str "u1"), ("ts", .str "2025-01-01T00:00:01Z"),
   ("superseded", .bool false)]

/-- A second concrete message for the best-effort scenario. -/
def msgB : Doc :=
  [("id", .str "msg_b"), ("messageId", .str "msg_b"),
   ("sessionId", .str "session_1"), ("tenantId", .str "t1"),
   ("userId", .str "u1"), ("ts", .str "2025-01-01T00:00:02Z"),
   ("superseded", .bool false)]

/-- C3 witness: a summary superseding both messages while the update of
`msg_a` fails; `msg_b` is still marked. -/
theorem c3_create_summary_best_effort_witness :
    (([msgA, msgB].map (fun y => strField y "id")).Nodup) ∧
    ("msg_b" ∈ ["msg_a", "msg_b"]) ∧
    ((fun s => s == "msg_a") "msg_b" = false) ∧
    (∃ w ∈ [msgA, msgB], strField w "messageId" = some "msg_b") ∧
    (∃ msgs', (create_summary (some []) (some [msgA, msgB]) false
        (fun s => s == "msg_a") "summary_1" "2025-01-03T00:00:00Z" "session_1"
        "t1" "u1" "recap" .null .null (some ["msg_a", "msg_b"])).2.1 = some msgs' ∧
      ∃ w ∈ msgs', markedFor "msg_b" w) :=
  ⟨by decide, by decide, rfl, ⟨msgB, by simp, rfl⟩,
    (c3_create_summary_best_effort [] [msgA, msgB] (fun s => s == "msg_a")
      "summary_1" "2025-01-03T00:00:00Z" "session_1" "t1" "u1" "recap" .null .null
      ["msg_a", "msg_b"] (by decide)).2.2 "msg_b" (by decide) rfl ⟨msgB, by simp, rfl⟩⟩

/-! ### C2: supersedes disjointness -/

/-- A message double-claimed by two summaries. -/
def dupMsg : Doc :=
  [("id", .str "msg_1"), ("messageId", .str "msg_1"),
   ("sessionId", .str "session_1"), ("tenantId", .str "t1"),
   ("userId", .str "u1"), ("ts", .str "2025-01-01T00:00:00Z"),
   ("superseded", .bool false)]

/-- The double-claimed message after its first marking. -/
def dupMsgMarked : Doc :=
  setF (setF dupMsg "superseded" (.bool true)) "ttl" (.num 2592000)

/-- The first summary claiming msg_1. -/
def sumA : Doc :=
  summaryDoc "summary_a" "session_1" "t1" "u1" .null "first half" .null
    "2025-01-02T00:00:00Z" (some ["msg_1"])

/-- The second summary claiming msg_1 again. -/
def sumB : Doc :=
  summaryDoc "summary_b" "session_1" "t1" "u1" .null "second half" .null
    "2025-01-03T00:00:00Z" (some ["msg_1"])

/-- C2 fails on the code: `create_summary` performs no disjointness check,
so two successive calls that both pass `supersedes = ["msg_1"]` leave two
distinct Summary documents in the container whose `supersedes` lists both
contain `msg_1` — the same message id is claimed by both. -/
theorem c2_counterexample :
    create_summary (some []) (some [dupMsg]) false (fun _ => false) "summary_a"
        "2025-01-02T00:00:00Z" "session_1" "t1" "u1" "first half" .null .null
        (some ["msg_1"])
      = (some [sumA], some [dupMsgMarked], .ok "summary_a") ∧
    create_summary (some [sumA]) (some [dupMsgMarked]) false (fun _ => false)
        "summary_b" "2025-01-03T00:00:00Z" "session_1" "t1" "u1" "second half"
        .null .null (some ["msg_1"])
      = (some [sumA, sumB], some [dupMsgMarked], .ok "summary_b") ∧
    getF sumA "supersedes" = some (.arr [.str "msg_1"]) ∧
    getF sumB "supersedes" = some (.arr [.str "msg_1"]) ∧
    sumA ≠ sumB := by
  refine ⟨rfl, rfl, rfl, rfl, ?_⟩
  intro h
  have h1 : getF sumA "id" = getF sumB "id" := congrArg (fun d => getF d "id") h
  rw [show getF sumA "id" = some (.str "summary_a") from rfl,
    show getF sumB "id" = some (.str "summary_b") from rfl] at h1
  exact absurd (JVal.str.inj (Option.some.inj h1)) (by decide)

/-- C2 (amended): `create_summary` stores the caller-supplied `supersedes`
list verbatim and enforces no cross-summary check itself; disjointness of
the stored `supersedes` sets therefore holds exactly when callers pass
disjoint lists — summaries created from disjoint argument lists have
disjoint `supersedes` fields. -/
theorem c2_supersedes_disjoint_amended (sums msgs : List Doc)
    (updFails : String → Bool)
    (id1 now1 ses1 ten1 use1 tx1 : String) (sp1 e1 : JVal) (l1 : List String)
    (id2 now2 ses2 ten2 use2 tx2 : String) (sp2 e2 : JVal) (l2 : List String)
    (hdisj : l1.Disjoint l2) :
    (create_summary (some sums) (some msgs) false updFails id1 now1 ses1 ten1
        use1 tx1 sp1 e1 (some l1)).1
      = some (upsertItem sums (summaryDoc id1 ses1 ten1 use1 sp1 tx1 e1 now1
          (some l1))) ∧
    getF (summaryDoc id1 ses1 ten1 use1 sp1 tx1 e1 now1 (some l1)) "supersedes"
      = some (.arr (l1.map .str)) ∧
    getF (summaryDoc id2 ses2 ten2 use2 sp2 tx2 e2 now2 (some l2)) "supersedes"
      = some (.arr (l2.map .str)) ∧
    (l1.map JVal.str).Disjoint (l2.map JVal.str) := by
  refine ⟨rfl, rfl, rfl, ?_⟩
  intro a ha1 ha2
  rcases List.mem_map.mp ha1 with ⟨x, hx, rfl⟩
  rcases List.mem_map.mp ha2 with ⟨y, hy, hxy⟩
  exact hdisj hx ((JVal.str.inj hxy) ▸ hy)

/-- C2 witness: the amended theorem applied to two summaries built from
the disjoint lists `["msg_1"]` and `["msg_2"]`. -/
theorem c2_supersedes_disjoint_amended_witness :
    ((["msg_1"] : List String).Disjoint ["msg_2"]) ∧
    ((create_summary (some []) (some []) false (fun _ => false) "summary_a"
        "2025-01-02T00:00:00Z" "session_1" "t1" "u1" "first" .null .null
        (some ["msg_1"])).1
      = some (upsertItem [] (summaryDoc "summary_a" "session_1" "t1" "u1" .null
          "first" .null "2025-01-02T00:00:00Z" (some ["msg_1"]))) ∧
      getF (summaryDoc "summary_a" "session_1" "t1" "u1" .null "first" .null
          "2025-01-02T00:00:00Z" (some ["msg_1"])) "supersedes"
        = some (.arr (["msg_1"].map .str)) ∧
      getF (summaryDoc "summary_b" "session_1" "t1" "u1" .null "second" .null
          "2025-01-03T00:00:00Z" (some ["msg_2"])) "supersedes"
        = some (.arr (["msg_2"].map .str)) ∧
      ((["msg_1"].map JVal.str).Disjoint (["msg_2"].map JVal.str))) :=
  ⟨by intro a h1 h2
      rw [List.mem_singleton] at h1 h2
      subst h1
      exact absurd h2 (by decide),
   c2_supersedes_disjoint_amended [] [] (fun _ => false)
     "summary_a" "2025-01-02T00:00:00Z" "session_1" "t1" "u1" "first" .null .null
     ["msg_1"] "summary_b" "2025-01-03T00:00:00Z" "session_1" "t1" "u1" "second"
     .null .null ["msg_2"]
     (by intro a h1 h2
         rw [List.mem_singleton] at h1 h2
         subst h1
         exact absurd h2 (by decide))⟩

/-! ### C8: memory retrieval -/

theorem memoryTypeOk_setF_embedding (mt : Option (List String)) (d : Doc) (v : JVal) :
    memoryTypeOk mt (setF d "embedding" v) = memoryTypeOk mt d := by
  cases mt with
  | none => rfl
  | some ts =>
    cases ts with
    | nil => rfl
    | cons a l =>
      simp only [memoryTypeOk]
      rw [strField_setF_ne _ _ _ _ (by decide)]

theorem memoryMatches_setF_embedding (u t : String) (mt : Option (List String))
    (q : ℚ) (d : Doc) (v : JVal) :
    memoryMatches u t mt q (setF d "embedding" v) = memoryMatches u t mt q d := by
  unfold memoryMatches
  rw [strField_setF_ne _ _ _ _ (by decide), strField_setF_ne _ _ _ _ (by decide),
    numField_setF_ne _ _ _ _ (by decide), strField_setF_ne _ _ _ _ (by decide),
    memoryTypeOk_setF_embedding]

theorem createdAtStr_setF_embedding (d : Doc) (v : JVal) :
    createdAtStr (setF d "embedding" v) = createdAtStr d := by
  unfold createdAtStr
  rw [strField_setF_ne _ _ _ _ (by decide)]

theorem orderedInsert_map_createdAt (g : Doc → Doc)
    (hg : ∀ x, createdAtStr (g x) = createdAtStr x) (a : Doc) (l : List Doc) :
    List.orderedInsert byCreatedAtDesc (g a) (l.map g)
      = (List.orderedInsert byCreatedAtDesc a l).map g := by
  induction l with
  | nil => rfl
  | cons b l ih =>
    simp only [List.map_cons, List.orderedInsert]
    by_cases h : byCreatedAtDesc a b
    · rw [if_pos (show byCreatedAtDesc (g a) (g b) from by
        unfold byCreatedAtDesc; rw [hg, hg]; exact h), if_pos h, List.map_cons,
        List.map_cons]
    · rw [if_neg (show ¬ byCreatedAtDesc (g a) (g b) from by
        unfold byCreatedAtDesc; rw [hg, hg]; exact h), if_neg h, List.map_cons, ih]

theorem insertionSort_map_createdAt (g : Doc → Doc)
    (hg : ∀ x, createdAtStr (g x) = createdAtStr x) (l : List Doc) :
    List.insertionSort byCreatedAtDesc (l.map g)
      = (List.insertionSort byCreatedAtDesc l).map g := by
  induction l with
  | nil => rfl
  | cons a l ih =>
    simp only [List.map_cons, List.insertionSort]
    rw [ih, orderedInsert_map_createdAt g hg]

/-- A concrete declarative memory used to exercise `query_memories`. -/
def declMem : Doc :=
  [("id", .str "mem_2"), ("memoryId", .str "mem_2"), ("userId", .str "u1"),
   ("tenantId", .str "t1"), ("memoryType", .str "declarative"),
   ("salience", .num 1), ("createdAt", .str "2025-01-01T00:00:00Z")]

/-- C8 fails on the code at one edge: the `IN (...)` filter is
interpolated only `if memory_types:` — Python truthiness — so an EMPTY
`memory_types` list applies no filter at all.  With `memory_types = []`,
a declarative memory is returned even though its `memoryType` is not
contained in the (empty) requested list. -/
theorem c8_counterexample :
    query_memories (some [declMem]) "u1" "t1" (some []) 0 = [declMem] ∧
    strField declMem "memoryType" = some "declarative" ∧
    ("declarative" : String) ∉ ([] : List String) :=
  ⟨rfl, rfl, by simp⟩

/-- C8 (amended): `query_memories` returns at most 5 memories, each with
the requested userId and tenantId and with salience ≥ min_salience; when
`memory_types` is given AND non-empty, each returned memory's type is
contained in it (an empty list disables the filter); results are ordered
by `createdAt` descending; and no embedding is consulted — rewriting
every stored document's embedding commutes with the query. -/
theorem c8_query_memories_amended (ms : List Doc) (user_id tenant_id : String)
    (memory_types : Option (List String)) (min_salience : ℚ) :
    (query_memories (some ms) user_id tenant_id memory_types min_salience).length ≤ 5 ∧
    (∀ d ∈ query_memories (some ms) user_id tenant_id memory_types min_salience,
      strField d "userId" = some user_id ∧
      strField d "tenantId" = some tenant_id ∧
      (∃ s, numField d "salience" = some s ∧ min_salience ≤ s) ∧
      (∀ ts, memory_types = some ts → ts ≠ [] →
        ∃ t, strField d "memoryType" = some t ∧ t ∈ ts)) ∧
    (query_memories (some ms) user_id tenant_id memory_types
      min_salience).Pairwise byCreatedAtDesc ∧
    (∀ emb : Doc → JVal,
      query_memories (some (ms.map (fun d => setF d "embedding" (emb d)))) user_id
          tenant_id memory_types min_salience
        = (query_memories (some ms) user_id tenant_id memory_types
            min_salience).map (fun d => setF d "embedding" (emb d))) := by
  refine ⟨List.length_take_le _ _, ?_, ?_, ?_⟩
  · intro d hd
    have hd2 : d ∈ ms.filter (memoryMatches user_id tenant_id memory_types
        min_salience) :=
      (List.mem_insertionSort _).mp (List.mem_of_mem_take hd)
    have hmatch := (List.mem_filter.mp hd2).2
    unfold memoryMatches at hmatch
    rw [Bool.and_eq_true, Bool.and_eq_true, Bool.and_eq_true, Bool.and_eq_true]
      at hmatch
    obtain ⟨⟨⟨⟨hu, ht⟩, hs⟩, hty⟩, _⟩ := hmatch
    refine ⟨eq_of_beq hu, eq_of_beq ht, ?_, ?_⟩
    · cases hns : numField d "salience" with
      | none => rw [hns] at hs; exact absurd hs (by simp)
      | some s => rw [hns] at hs; exact ⟨s, rfl, of_decide_eq_true hs⟩
    · intro ts hts hne
      subst hts
      cases ts with
      | nil => exact absurd rfl hne
      | cons a l =>
        simp only [memoryTypeOk] at hty
        cases hmt : strField d "memoryType" with
        | none => rw [hmt] at hty; exact absurd hty (by simp)
        | some t =>
          rw [hmt] at hty
          exact ⟨t, rfl, List.elem_iff.mp hty⟩
  · exact (List.sorted_insertionSort _ _).sublist (List.take_sublist _ _)
  · intro emb
    show (List.insertionSort byCreatedAtDesc
        ((ms.map (fun d => setF d "embedding" (emb d))).filter
          (memoryMatches user_id tenant_id memory_types min_salience))).take 5
      = ((List.insertionSort byCreatedAtDesc (ms.filter
          (memoryMatches user_id tenant_id memory_types min_salience))).take 5).map
          (fun d => setF d "embedding" (emb d))
    rw [List.filter_map]
    rw [List.filter_congr (fun a _ => by
      show memoryMatches user_id tenant_id memory_types min_salience
          ((fun d => setF d "embedding" (emb d)) a)
        = memoryMatches user_id tenant_id memory_types min_salience a
      exact memoryMatches_setF_embedding user_id tenant_id memory_types
        min_salience a (emb a))]
    rw [insertionSort_map_createdAt _ (fun x => createdAtStr_setF_embedding x (emb x))]
    rw [List.map_take]

/-- A concrete episodic memory used to exercise `query_memories`. -/
def epMem : Doc :=
  [("id", .str "mem_3"), ("memoryId", .str "mem_3"), ("userId", .str "u1"),
   ("tenantId", .str "t1"), ("memoryType", .str "episodic"),
   ("salience", .num 1), ("createdAt", .str "2025-01-01T00:00:00Z")]

/-- C8 witness: the amended theorem applied to a one-memory store with a
non-empty type filter. -/
theorem c8_query_memories_amended_witness :
    epMem ∈ query_memories (some [epMem]) "u1" "t1" (some ["episodic"]) 0 ∧
    (∃ t, strField epMem "memoryType" = some t ∧ t ∈ ["episodic"]) :=
  ⟨List.mem_singleton.mpr rfl,
    ((c8_query_memories_amended [epMem] "u1" "t1" (some ["episodic"]) 0).2.1 epMem
      (List.mem_singleton.mpr rfl)).2.2.2 ["episodic"] rfl (by decide)⟩

end TravelDB
